import Mathlib

/-!
Verification development for the ci-chat-bot bootstrap (`main.go`).

The file shallowly embeds the credential-discovery core of the program:
the credential filename matcher (the regex `(.*).kubeconfig` used via
`FindStringSubmatch`), the build-cluster directory scanner
(`readBuildClusterKubeConfigs`), the kubeconfig watch supervisor
(`setupKubeconfigWatches` and its event loop), and the bootstrap
orchestrator (`run`) together with its bot retry loop.

External library calls (directory listing, file reads, client
constructions, `fsnotify`, `url.Parse`, environment reads) are modelled
as oracles supplied through environment structures, with Go's
`(value, error)` results modelled as `Except` values (or as explicit
pairs where the source discards the error component). Strings are
modelled as `List Char`.
-/

set_option autoImplicit false

abbrev Err := Nat
abbrev Bytes := Nat
abbrev ClientCmdConfig := Nat
abbrev RestConfig := Nat
abbrev CoreClientT := Nat
abbrev ImageClientT := Nat
abbrev ProjectClientT := Nat
abbrev DynClientT := Nat
abbrev ConfigAgentT := Nat
abbrev URLT := Nat

deriving instance DecidableEq for Except

/-- Characters of the literal `kubeconfig` appearing in the regex
`(.*).kubeconfig` (`reBuildClusterName` in `main.go`). The dot in the
pattern is unescaped, so it is the regex any-character metacharacter. -/
def kubeconfigChars : List Char := ['k', 'u', 'b', 'e', 'c', 'o', 'n', 'f', 'i', 'g']

/-- Decides whether the first argument is an initial segment of the second. -/
def beginsWith : List Char → List Char → Bool
  | [], _ => true
  | _ :: _, [] => false
  | p :: ps, c :: cs => p == c && beginsWith ps cs

/-- Does the literal `kubeconfig` occur in `f` starting at index `j`? -/
def occursAt (f : List Char) (j : Nat) : Bool :=
  beginsWith kubeconfigChars (f.drop j)

/-- Greedy length of the capture group `(.*)` for a match of
`(.*).kubeconfig` anchored at the head of `t`: `maxDotLen t = some l`
means the chars `t[0..l]` are all non-newline (`l` chars for `.*` plus
one char for the unescaped `.`) and `t` continues with the literal
`kubeconfig` at index `l+1`; greediness makes `l` maximal. Returns
`none` when no match starts at the head of `t`. -/
def maxDotLen : List Char → Option Nat
  | [] => none
  | c :: rest =>
    if c == '\n' then none
    else
      match maxDotLen rest with
      | some l => some (l + 1)
      | none => if beginsWith kubeconfigChars rest then some 0 else none

/-- Leftmost-first search of Go's `regexp.FindStringSubmatch` for
`(.*).kubeconfig`: the smallest start index at which a match exists,
paired with the greedy capture length at that index. -/
def findSubmatchStart : List Char → Option (Nat × Nat)
  | [] => none
  | c :: rest =>
    match maxDotLen (c :: rest) with
    | some l => some (0, l)
    | none =>
      match findSubmatchStart rest with
      | some (i, l) => some (i + 1, l)
      | none => none

/-- Embedding of `reBuildClusterName.FindStringSubmatch(name)` from
`main.go`: `none` models a `nil` result (no match), `some cs` models a
match whose first capture group `m[1]` (used as the cluster name) is
`cs`. -/
def findClusterNameSubmatch (s : List Char) : Option (List Char) :=
  match findSubmatchStart s with
  | some (i, l) => some ((s.drop i).take l)
  | none => none

/-- Predicate of the claimed matcher behaviour: the filename ends with
the literal suffix `.kubeconfig` and the part before that suffix is
non-empty. Stated from the spec's words, for comparison with the
behaviour of `findClusterNameSubmatch`. -/
def specSuffixMatch (f : List Char) : Bool :=
  11 < f.length && f.drop (f.length - 11) == '.' :: kubeconfigChars

def nameEastKubeconfig : List Char := ['e', 'a', 's', 't', '.'] ++ kubeconfigChars

def nameBareKubeconfig : List Char := kubeconfigChars

def nameAKubeconfigNoDot : List Char := 'a' :: kubeconfigChars

/-- Model of one `os.FileInfo` entry returned by `ioutil.ReadDir`: its
name and whether it is a directory. -/
structure DirEntry where
  name : List Char
  isDir : Bool
deriving DecidableEq

/-- Oracles for the external calls made by `readBuildClusterKubeConfigs`:
the directory listing, file reads (keyed by full path), and the
kubeconfig-parsing and client-construction library functions. Each is a
pure function modelling the result the library call would return. -/
structure FS where
  readDir : Except Err (List DirEntry)
  readFile : List Char → Except Err Bytes
  newClientConfigFromBytes : Bytes → Except Err ClientCmdConfig
  clientConfigOf : ClientCmdConfig → Except Err RestConfig
  newCoreClient : RestConfig → Except Err CoreClientT
  newImageClient : RestConfig → Except Err ImageClientT
  newProjectClient : RestConfig → Except Err ProjectClientT

/-- Errors of `readBuildClusterKubeConfigs`, one constructor per
`fmt.Errorf` wrapping site in the source. -/
inductive ScanError where
  | accessLocation (e : Err)
  | accessKubeconfig (e : Err)
  | loadBuildClientConfiguration (e : Err)
  | loadClusterConfiguration (e : Err)
  | createCoreClient (e : Err)
  | createTargetImageClient (e : Err)
  | createProjectClient (e : Err)
deriving DecidableEq

/-- Embedding of the `BuildClusterClientConfig` struct from `main.go`. -/
structure BuildClusterClientConfig where
  KubeconfigPath : List Char
  CoreConfig : RestConfig
  CoreClient : CoreClientT
  ProjectClient : ProjectClientT
  TargetImageClient : ImageClientT
deriving DecidableEq

/-- Embedding of `BuildClusterClientConfigMap` (a Go map) as an
association list without duplicate keys, written by `mapInsert`. -/
abbrev ClusterMapT := List (List Char × BuildClusterClientConfig)

/-- Go map assignment `m[k] = v`: overwrite the existing entry for `k`
or append a new one. -/
def mapInsert (m : ClusterMapT) (k : List Char) (v : BuildClusterClientConfig) : ClusterMapT :=
  match m with
  | [] => [(k, v)]
  | (k', v') :: rest => if k = k' then (k, v) :: rest else (k', v') :: mapInsert rest k v

/-- Model of Go's `path.Join(location, name)` on already-clean inputs:
join with a single separator (the `Clean` normalisation of `path.Join`
is identity on the clean paths relevant here). -/
def pathJoin (location name : List Char) : List Char :=
  location ++ '/' :: name

/-- The body of the matched-file branch of `readBuildClusterKubeConfigs`:
read the file at `path.Join(location, file.Name())`, parse it
(`clientcmd.NewClientConfigFromBytes`), resolve it (`cfg.ClientConfig()`),
and construct the core, target-image, and project clients, in source
order, failing at the first error with the corresponding wrap. -/
def buildBundle (fs : FS) (location : List Char) (file : DirEntry) :
    Except ScanError BuildClusterClientConfig :=
  match fs.readFile (pathJoin location file.name) with
  | .error e => .error (.accessKubeconfig e)
  | .ok contents =>
    match fs.newClientConfigFromBytes contents with
    | .error e => .error (.loadBuildClientConfiguration e)
    | .ok cfg =>
      match fs.clientConfigOf cfg with
      | .error e => .error (.loadClusterConfiguration e)
      | .ok clusterConfig =>
        match fs.newCoreClient clusterConfig with
        | .error e => .error (.createCoreClient e)
        | .ok coreClient =>
          match fs.newImageClient clusterConfig with
          | .error e => .error (.createTargetImageClient e)
          | .ok targetImageClient =>
            match fs.newProjectClient clusterConfig with
            | .error e => .error (.createProjectClient e)
            | .ok projectClient =>
              .ok { KubeconfigPath := pathJoin location file.name
                    CoreConfig := clusterConfig
                    CoreClient := coreClient
                    ProjectClient := projectClient
                    TargetImageClient := targetImageClient }

/-- One iteration of the scanner's `for _, file := range files` loop:
directories are skipped, non-matching names are skipped, and a matched
name has its bundle built and inserted under the captured cluster name
`m[1]`. -/
def scanEntry (fs : FS) (location : List Char) (m : ClusterMapT) (file : DirEntry) :
    Except ScanError ClusterMapT :=
  if file.isDir then .ok m
  else
    match findClusterNameSubmatch file.name with
    | none => .ok m
    | some clusterName =>
      match buildBundle fs location file with
      | .error e => .error e
      | .ok bundle => .ok (mapInsert m clusterName bundle)

/-- The scanner's loop over the listed entries, threading the map and
aborting at the first error. -/
def scanFiles (fs : FS) (location : List Char) (m : ClusterMapT) :
    List DirEntry → Except ScanError ClusterMapT
  | [] => .ok m
  | file :: rest =>
    match scanEntry fs location m file with
    | .error e => .error e
    | .ok m' => scanFiles fs location m' rest

/-- Embedding of `readBuildClusterKubeConfigs(location)`: list the
directory (failure aborts the whole scan), then fold the per-entry step
over the entries starting from the empty map. -/
def readBuildClusterKubeConfigs (fs : FS) (location : List Char) :
    Except ScanError ClusterMapT :=
  match fs.readDir with
  | .error e => .error (.accessLocation e)
  | .ok files => scanFiles fs location [] files

/-- Oracles for `setupKubeconfigWatches`: the result of
`fsnotify.NewWatcher()`, and the per-path results of `os.Stat` and
`watcher.Add` (a `some` value is the error returned). -/
structure WatchEnv where
  newWatcher : Except Err Unit
  statErr : List Char → Option Err
  addErr : List Char → Option Err

/-- Errors of `setupKubeconfigWatches`, one constructor per `fmt.Errorf`
wrapping site in the source. -/
inductive WatchError where
  | watcherSetup (e : Err)
  | watchAdd (e : Err)
deriving DecidableEq

/-- The registration loop of `setupKubeconfigWatches`: for each bundle,
`os.Stat` the stored `KubeconfigPath`; on a stat error skip the bundle
silently; otherwise `watcher.Add` that same path, aborting with an error
on the first add failure. On success returns the list of paths on which
a watch was registered (the watcher state built by the `Add` calls). -/
def addWatches (env : WatchEnv) : ClusterMapT → Except WatchError (List (List Char))
  | [] => .ok []
  | kb :: rest =>
    match env.statErr kb.2.KubeconfigPath with
    | some _ => addWatches env rest
    | none =>
      match env.addErr kb.2.KubeconfigPath with
      | some e => .error (.watchAdd e)
      | none =>
        match addWatches env rest with
        | .error er => .error er
        | .ok ws => .ok (kb.2.KubeconfigPath :: ws)

/-- Embedding of `setupKubeconfigWatches(clusters)`: create the watcher
(failure aborts), then run the registration loop. The background event
loop the function then launches is modelled separately by
`watchEventLoop`. -/
def setupKubeconfigWatches (env : WatchEnv) (clusters : ClusterMapT) :
    Except WatchError (List (List Char)) :=
  match env.newWatcher with
  | .error e => .error (.watcherSetup e)
  | .ok _ => addWatches env clusters

/-- Kinds of `fsnotify` events: creation, content write, removal,
rename, and permission/metadata-only change (`Chmod`). -/
inductive FsnotifyOp where
  | Create
  | Write
  | Remove
  | Rename
  | Chmod
deriving DecidableEq

/-- One filesystem event delivered on the watcher's event channel. -/
structure FsEvent where
  op : FsnotifyOp
  name : List Char
deriving DecidableEq

/-- Result of running the watch goroutine's event loop on a finite
batch of delivered events: either the loop is still watching, or it
called `os.Exit` with the given code. -/
inductive WatchLoopResult where
  | watching
  | exitProcess (code : Nat)
deriving DecidableEq

/-- Embedding of the goroutine body in `setupKubeconfigWatches`: for
each event, a `Chmod` event is skipped (`continue`) and any other event
causes `os.Exit(0)` immediately, ignoring the remaining events. -/
def watchEventLoop : List FsEvent → WatchLoopResult
  | [] => .watching
  | e :: rest =>
    if e.op = FsnotifyOp.Chmod then watchEventLoop rest
    else .exitProcess 0

/-- Fields of the `options` struct relevant to `run`, holding the values
present after flag parsing. -/
structure OptionsModel where
  GithubEndpoint : List Char
  ForcePROwner : List Char
  BuildClusterKubeconfigsLocation : List Char
  ReleaseClusterKubeconfig : List Char
  ConfigResolver : List Char

/-- Steps of `run` recorded in the model's trace, in the order the
source performs them. -/
inductive RunStep where
  | scanDir
  | watchSetup
  | warnWatchFailed
  | parseResolver
  | checkBotToken
  | loadProwKubeconfig
  | newDynamicClient
  | loadReleaseConfig
  | newImageClient
  | newConfigAgent
  | newJobManager
  | managerStart
  | newBot
  | botStart (n : Nat)
  | sleepSecs (s : Nat)
deriving DecidableEq

/-- Errors returned by `run`, one constructor per `return` site. -/
inductive RunError where
  | loadBuildClusters (e : ScanError)
  | badResolverURL (e : Err)
  | missingBotToken
  | loadKubeconfigFailed (e : Err)
  | prowClient (e : Err)
  | imageClient (e : Err)
  | configAgent (e : Err)
  | managerStartFailed (e : Err)
  | botFatal (e : Err)
deriving DecidableEq

/-- Observable outcome of `run` after a bounded number of bot-loop
iterations: a fatal error was returned, or the bot retry loop is still
running. -/
inductive RunOutcome where
  | fatal (e : RunError)
  | running
deriving DecidableEq

/-- Outcome of the bot retry loop after a bounded number of iterations. -/
inductive BotLoopOutcome where
  | stillRunning
  | exited (e : Err)
deriving DecidableEq

/-- Embedding of the `for { ... }` bot retry loop at the end of `run`:
iteration `n` calls `bot.Start(manager)` whose result is `outcome n`
(`none` models a `nil` error). A non-`nil`, non-retriable error is
returned immediately; otherwise the loop sleeps `5 * time.Second` and
retries. `fuel` bounds how many iterations are observed; `n` is the
index of the next start. The trace of starts and sleeps is returned
with the outcome. -/
def botLoop (outcome : Nat → Option Err) (retriable : Err → Bool) :
    Nat → Nat → List RunStep × BotLoopOutcome
  | 0, _ => ([], .stillRunning)
  | fuel + 1, n =>
    match outcome n with
    | some e =>
      if retriable e then
        (RunStep.botStart n :: RunStep.sleepSecs 5 :: (botLoop outcome retriable fuel (n + 1)).1,
         (botLoop outcome retriable fuel (n + 1)).2)
      else ([RunStep.botStart n], .exited e)
    | none =>
      (RunStep.botStart n :: RunStep.sleepSecs 5 :: (botLoop outcome retriable fuel (n + 1)).1,
       (botLoop outcome retriable fuel (n + 1)).2)

/-- Oracles and inputs for `run` beyond the scanner and watch oracles:
the parsed options, `url.Parse`, the `BOT_TOKEN` environment variable,
the ambient-kubeconfig load, the dynamic (prow) client construction, the
release-kubeconfig load (a Go `(value, error)` pair), the release image
client construction, the config agent, the Job Manager's initial start,
and the bot's per-iteration results with the retriability classifier. -/
structure RunEnv where
  opt : OptionsModel
  fs : FS
  watchEnv : WatchEnv
  parseURLResult : List Char → Except Err URLT
  botToken : List Char
  loadKubeconfigResult : Except Err RestConfig
  dynamicNewForConfig : RestConfig → Except Err DynClientT
  loadReleaseKubeconfig : List Char → RestConfig × Option Err
  imageNewForConfig : RestConfig → Except Err ImageClientT
  configAgentResult : Except Err ConfigAgentT
  managerStartResult : Except Err Unit
  botOutcome : Nat → Option Err
  retriable : Err → Bool

/-- Modelled from the spec: `loadKubeconfigFromFlagOrDefault` is repo
code not present in the visible source. Per the spec it resolves the
release-cluster connection: "if a distinct credential is configured,
load it, else fall back to the process's own ambient cluster
credential". The result is a Go `(value, error)` pair; the fallback
path cannot fail. -/
def loadKubeconfigFromFlagOrDefault (oracle : List Char → RestConfig × Option Err)
    (flagPath : List Char) (fallback : RestConfig) : RestConfig × Option Err :=
  if flagPath.length = 0 then (fallback, none)
  else oracle flagPath

/-- The tail of `run()` from line 84 of the source onward, in source
order: parse the resolver URL, check `BOT_TOKEN`, load the ambient
kubeconfig, build the prow dynamic client, load the release kubeconfig
— whose error component is discarded, exactly as the source overwrites
`err` on the next line without checking it — build the release image
client, build the config agent, construct the Job Manager and start it,
construct the Bot, and enter the retry loop. Returns the trace of steps
performed from this point with the outcome. -/
def runAfterWatch (env : RunEnv) (fuel : Nat) : List RunStep × RunOutcome :=
  match env.parseURLResult env.opt.ConfigResolver with
  | .error e => ([RunStep.parseResolver], .fatal (.badResolverURL e))
  | .ok _resolverURL =>
    if env.botToken.length = 0 then
      ([RunStep.parseResolver, RunStep.checkBotToken], .fatal .missingBotToken)
    else
      match env.loadKubeconfigResult with
      | .error e =>
        ([RunStep.parseResolver, RunStep.checkBotToken, RunStep.loadProwKubeconfig],
         .fatal (.loadKubeconfigFailed e))
      | .ok prowJobKubeconfig =>
        match env.dynamicNewForConfig prowJobKubeconfig with
        | .error e =>
          ([RunStep.parseResolver, RunStep.checkBotToken, RunStep.loadProwKubeconfig,
            RunStep.newDynamicClient], .fatal (.prowClient e))
        | .ok _dynamicClient =>
          match env.imageNewForConfig
              (loadKubeconfigFromFlagOrDefault env.loadReleaseKubeconfig
                env.opt.ReleaseClusterKubeconfig prowJobKubeconfig).1 with
          | .error e =>
            ([RunStep.parseResolver, RunStep.checkBotToken, RunStep.loadProwKubeconfig,
              RunStep.newDynamicClient, RunStep.loadReleaseConfig, RunStep.newImageClient],
             .fatal (.imageClient e))
          | .ok _imageClient =>
            match env.configAgentResult with
            | .error e =>
              ([RunStep.parseResolver, RunStep.checkBotToken, RunStep.loadProwKubeconfig,
                RunStep.newDynamicClient, RunStep.loadReleaseConfig, RunStep.newImageClient,
                RunStep.newConfigAgent], .fatal (.configAgent e))
            | .ok _configAgent =>
              match env.managerStartResult with
              | .error e =>
                ([RunStep.parseResolver, RunStep.checkBotToken, RunStep.loadProwKubeconfig,
                  RunStep.newDynamicClient, RunStep.loadReleaseConfig, RunStep.newImageClient,
                  RunStep.newConfigAgent, RunStep.newJobManager, RunStep.managerStart],
                 .fatal (.managerStartFailed e))
              | .ok _ =>
                match botLoop env.botOutcome env.retriable fuel 0 with
                | (tr, .exited e) =>
                  ([RunStep.parseResolver, RunStep.checkBotToken, RunStep.loadProwKubeconfig,
                    RunStep.newDynamicClient, RunStep.loadReleaseConfig, RunStep.newImageClient,
                    RunStep.newConfigAgent, RunStep.newJobManager, RunStep.managerStart,
                    RunStep.newBot] ++ tr, .fatal (.botFatal e))
                | (tr, .stillRunning) =>
                  ([RunStep.parseResolver, RunStep.checkBotToken, RunStep.loadProwKubeconfig,
                    RunStep.newDynamicClient, RunStep.loadReleaseConfig, RunStep.newImageClient,
                    RunStep.newConfigAgent, RunStep.newJobManager, RunStep.managerStart,
                    RunStep.newBot] ++ tr, .running)

/-- Embedding of `run()` from `main.go`, after flag parsing, returning
the trace of performed steps and the outcome. The source's order is
kept: scan the build-cluster directory (any error is returned
immediately), set up the kubeconfig watches (an error only logs a
warning, recorded as `warnWatchFailed` in the trace), then continue
with `runAfterWatch`. -/
def runModel (env : RunEnv) (fuel : Nat) : List RunStep × RunOutcome :=
  match readBuildClusterKubeConfigs env.fs env.opt.BuildClusterKubeconfigsLocation with
  | .error e => ([RunStep.scanDir], .fatal (.loadBuildClusters e))
  | .ok buildClusterClientConfigs =>
    let watchSteps :=
      match setupKubeconfigWatches env.watchEnv buildClusterClientConfigs with
      | .error _ => [RunStep.watchSetup, RunStep.warnWatchFailed]
      | .ok _ => [RunStep.watchSetup]
    let rest := runAfterWatch env fuel
    (RunStep.scanDir :: watchSteps ++ rest.1, rest.2)

/-- A watch environment whose setup always succeeds (every stat fails,
so every bundle is skipped and no add is attempted). -/
def okWatchEnv : WatchEnv :=
  { newWatcher := .ok ()
    statErr := fun _ => some 0
    addErr := fun _ => none }

def nameNotesTxt : List Char := ['n', 'o', 't', 'e', 's', '.', 't', 'x', 't']

def nameAKubeconfig : List Char := ['a', '.'] ++ kubeconfigChars

def nameBKubeconfig : List Char := ['b', '.'] ++ kubeconfigChars

def locD : List Char := ['d']

/-- A filesystem oracle in which everything succeeds and the directory
is empty. -/
def fsAllOk : FS :=
  { readDir := .ok []
    readFile := fun _ => .ok 0
    newClientConfigFromBytes := fun _ => .ok 0
    clientConfigOf := fun _ => .ok 0
    newCoreClient := fun _ => .ok 0
    newImageClient := fun _ => .ok 0
    newProjectClient := fun _ => .ok 0 }

/-- A directory holding `notes.txt` and `a.kubeconfig`, all reads and
client constructions succeeding. -/
def fsC9 : FS :=
  { fsAllOk with readDir := .ok [⟨nameNotesTxt, false⟩, ⟨nameAKubeconfig, false⟩] }

/-- The bundle the scanner builds for `a.kubeconfig` under `fsC9`. -/
def bundleA : BuildClusterClientConfig :=
  { KubeconfigPath := pathJoin locD nameAKubeconfig
    CoreConfig := 0
    CoreClient := 0
    ProjectClient := 0
    TargetImageClient := 0 }

def entryB : DirEntry := ⟨nameBKubeconfig, false⟩

/-- A directory holding a valid `a.kubeconfig` and a malformed
`b.kubeconfig` (its bytes fail to parse). -/
def fsC3 : FS :=
  { fsAllOk with
    readDir := .ok [⟨nameAKubeconfig, false⟩, entryB]
    readFile := fun p => if p = pathJoin locD nameBKubeconfig then .ok 2 else .ok 1
    newClientConfigFromBytes := fun b => if b = 2 then .error 5 else .ok 0 }

def optBase : OptionsModel :=
  { GithubEndpoint := []
    ForcePROwner := []
    BuildClusterKubeconfigsLocation := locD
    ReleaseClusterKubeconfig := []
    ConfigResolver := [] }

/-- A run environment in which every step succeeds and the bot always
returns a `nil` error. -/
def envBase : RunEnv :=
  { opt := optBase
    fs := fsAllOk
    watchEnv := okWatchEnv
    parseURLResult := fun _ => .ok 0
    botToken := ['t']
    loadKubeconfigResult := .ok 0
    dynamicNewForConfig := fun _ => .ok 0
    loadReleaseKubeconfig := fun _ => (0, some 7)
    imageNewForConfig := fun _ => .ok 0
    configAgentResult := .ok 0
    managerStartResult := .ok 0
    botOutcome := fun _ => none
    retriable := fun _ => false }

/-- Environment for the release-credential bug: a distinct release
kubeconfig is configured and loading it fails (`some 7`), while the
image-client construction on the returned zero value succeeds. -/
def envC2 : RunEnv :=
  { envBase with opt := { optBase with ReleaseClusterKubeconfig := ['r'] } }

/-- Environment with an absent `BOT_TOKEN` and an unreadable
build-cluster directory. -/
def envC6 : RunEnv :=
  { envBase with botToken := [], fs := { fsAllOk with readDir := .error 3 } }

/-- Environment in which creating the fsnotify watcher fails. -/
def envC8 : RunEnv :=
  { envBase with watchEnv := { okWatchEnv with newWatcher := .error 4 } }

/-- Bot results: iteration `n` returns error `n`. -/
def outcomeC5 : Nat → Option Err := fun n => some n

/-- Errors `0` and `1` are retriable, error `2` is not. -/
def retriableC5 : Err → Bool := fun e => decide (e < 2)

def envC5 : RunEnv :=
  { envBase with botOutcome := outcomeC5, retriable := retriableC5 }

/-- A second bundle, backed by a different path. -/
def bundleB : BuildClusterClientConfig :=
  { KubeconfigPath := pathJoin locD nameBKubeconfig
    CoreConfig := 0
    CoreClient := 0
    ProjectClient := 0
    TargetImageClient := 0 }

def mapC7 : ClusterMapT := [(['a'], bundleA), (['b'], bundleB)]

/-- Watch environment in which `b`'s file is missing (stat fails) while
`a`'s exists, and every add succeeds. -/
def watchEnvC7 : WatchEnv :=
  { newWatcher := .ok ()
    statErr := fun p => if p = bundleB.KubeconfigPath then some 1 else none
    addErr := fun _ => none }

/-- Watch environment in which every file exists and every add succeeds. -/
def watchEnvC10 : WatchEnv :=
  { newWatcher := .ok ()
    statErr := fun _ => none
    addErr := fun _ => none }

def evsC4 : List FsEvent := [⟨FsnotifyOp.Chmod, []⟩, ⟨FsnotifyOp.Write, []⟩, ⟨FsnotifyOp.Remove, []⟩]

/-- Environment with an absent `BOT_TOKEN` in which every earlier step
succeeds. -/
def envC6ok : RunEnv := { envBase with botToken := [] }

lemma beginsWith_length : ∀ {p s : List Char}, beginsWith p s = true → p.length ≤ s.length
  | [], _, _ => Nat.zero_le _
  | _ :: _, [], h => by simp [beginsWith] at h
  | _ :: as, _ :: bs, h => by
    simp only [beginsWith, Bool.and_eq_true] at h
    exact Nat.succ_le_succ (beginsWith_length h.2)

lemma occursAt_cons (c : Char) (rest : List Char) (j : Nat) :
    occursAt (c :: rest) (j + 1) = occursAt rest j := rfl

lemma maxDotLen_spec (t : List Char) (h : '\n' ∉ t) :
    (∀ l, maxDotLen t = some l →
      occursAt t (l + 1) = true ∧ ∀ j, l + 1 < j → occursAt t j = false)
    ∧ (maxDotLen t = none → ∀ j, 1 ≤ j → occursAt t j = false) := by
  induction t with
  | nil =>
    constructor
    · intro l hl
      simp [maxDotLen] at hl
    · intro _ j _
      simp [occursAt, kubeconfigChars, beginsWith]
  | cons c rest ih =>
    have hc : c ≠ '\n' := fun hc => h (hc ▸ List.mem_cons_self c rest)
    have hrest : '\n' ∉ rest := fun hm => h (List.mem_cons_of_mem c hm)
    obtain ⟨ih1, ih2⟩ := ih hrest
    have hceq : (c == '\n') = false := by simp [hc]
    cases hm : maxDotLen rest with
    | some l0 =>
      have hsome : maxDotLen (c :: rest) = some (l0 + 1) := by
        simp [maxDotLen, hceq, hm]
      obtain ⟨ho, hmax⟩ := ih1 l0 hm
      constructor
      · intro l hl
        rw [hsome] at hl
        injection hl with hl
        subst hl
        refine ⟨ho, ?_⟩
        intro j hj
        cases j with
        | zero => omega
        | succ j' =>
          rw [occursAt_cons]
          exact hmax j' (by omega)
      · intro hnone
        rw [hsome] at hnone
        simp at hnone
    | none =>
      cases hb : beginsWith kubeconfigChars rest with
      | true =>
        have hsome : maxDotLen (c :: rest) = some 0 := by
          simp [maxDotLen, hceq, hm, hb]
        constructor
        · intro l hl
          rw [hsome] at hl
          injection hl with hl
          subst hl
          constructor
          · exact hb
          · intro j hj
            cases j with
            | zero => omega
            | succ j' =>
              rw [occursAt_cons]
              exact ih2 hm j' (by omega)
        · intro hnone
          rw [hsome] at hnone
          simp at hnone
      | false =>
        have hnone' : maxDotLen (c :: rest) = none := by
          simp [maxDotLen, hceq, hm, hb]
        constructor
        · intro l hl
          rw [hnone'] at hl
          simp at hl
        · intro _ j hj
          cases j with
          | zero => omega
          | succ j' =>
            rw [occursAt_cons]
            cases Nat.eq_zero_or_pos j' with
            | inl h0 => exact h0 ▸ hb
            | inr hpos => exact ih2 hm j' hpos

lemma findSubmatchStart_nl (s : List Char) (h : '\n' ∉ s) :
    findSubmatchStart s = (maxDotLen s).map (fun l => ((0 : Nat), l)) := by
  induction s with
  | nil => simp [findSubmatchStart, maxDotLen]
  | cons c rest ih =>
    have hc : c ≠ '\n' := fun hc => h (hc ▸ List.mem_cons_self c rest)
    have hrest : '\n' ∉ rest := fun hm => h (List.mem_cons_of_mem c hm)
    have hceq : (c == '\n') = false := by simp [hc]
    cases hm : maxDotLen (c :: rest) with
    | some l => simp [findSubmatchStart, hm]
    | none =>
      have hm' : maxDotLen rest = none := by
        cases hm2 : maxDotLen rest with
        | none => rfl
        | some l0 =>
          have : maxDotLen (c :: rest) = some (l0 + 1) := by
            simp [maxDotLen, hceq, hm2]
          rw [hm] at this
          simp at this
      have ihr := ih hrest
      rw [hm'] at ihr
      simp [findSubmatchStart, hm, ihr]

lemma findClusterNameSubmatch_nl (s : List Char) (h : '\n' ∉ s) :
    findClusterNameSubmatch s = (maxDotLen s).map (fun l => s.take l) := by
  have h1 := findSubmatchStart_nl s h
  cases hm : maxDotLen s with
  | none =>
    rw [hm] at h1
    simp at h1
    simp [findClusterNameSubmatch, h1]
  | some l =>
    rw [hm] at h1
    simp at h1
    simp [findClusterNameSubmatch, h1]

/-- C1 (amended): for a newline-free filename `f`, the Credential File
Matcher (the unanchored regex `(.*).kubeconfig` with an unescaped dot)
matches `f` iff the literal `kubeconfig` occurs anywhere in `f` at an
index `j ≥ 1` — not only as the suffix `.kubeconfig`, and the extracted
name may be empty; when it matches, the extracted cluster name is the
portion of `f` before the character preceding the last such occurrence.
Directory entries are never matched: the scanner skips them before
consulting the matcher. -/
theorem C1_matcher_behaviour (f : List Char) (hnl : '\n' ∉ f) :
    ((findClusterNameSubmatch f).isSome = true ↔ ∃ j, 1 ≤ j ∧ occursAt f j = true)
    ∧ (∀ nm, findClusterNameSubmatch f = some nm →
        nm = f.take nm.length
        ∧ occursAt f (nm.length + 1) = true
        ∧ ∀ j, nm.length + 1 < j → occursAt f j = false)
    ∧ (∀ fs loc m e, e.isDir = true → scanEntry fs loc m e = .ok m) := by
  have hf := findClusterNameSubmatch_nl f hnl
  have hspec := maxDotLen_spec f hnl
  refine ⟨?_, ?_, ?_⟩
  · constructor
    · intro hs
      cases hm : maxDotLen f with
      | none =>
        rw [hm] at hf
        rw [hf] at hs
        simp at hs
      | some l =>
        exact ⟨l + 1, by omega, (hspec.1 l hm).1⟩
    · rintro ⟨j, hj, hocc⟩
      cases hm : maxDotLen f with
      | none =>
        rw [hspec.2 hm j hj] at hocc
        cases hocc
      | some l =>
        rw [hm] at hf
        rw [hf]
        simp
  · intro nm hnm
    cases hm : maxDotLen f with
    | none =>
      rw [hm] at hf
      rw [hf] at hnm
      simp at hnm
    | some l =>
      rw [hm] at hf
      rw [hf] at hnm
      simp only [Option.map_some'] at hnm
      injection hnm with hnm
      obtain ⟨ho, hmax⟩ := hspec.1 l hm
      have ho' : beginsWith kubeconfigChars (f.drop (l + 1)) = true := ho
      have hlen10 : kubeconfigChars.length ≤ (f.drop (l + 1)).length :=
        beginsWith_length ho'
      have hdl : (f.drop (l + 1)).length = f.length - (l + 1) := List.length_drop _ _
      have hkl : kubeconfigChars.length = 10 := by decide
      have hl : l ≤ f.length := by omega
      have hnmlen : nm.length = l := by
        rw [← hnm, List.length_take]
        omega
      refine ⟨?_, ?_, ?_⟩
      · rw [hnmlen]
        exact hnm.symm
      · rw [hnmlen]
        exact ho
      · rw [hnmlen]
        exact hmax
  · intro fs loc m e he
    simp [scanEntry, he]

/-- C1 counterexample: the filename `akubeconfig` does not end with the
literal suffix `.kubeconfig` (so the claim says it must not match), yet
the matcher matches it, and with an empty extracted name. -/
theorem C1_matcher_counterexample :
    findClusterNameSubmatch nameAKubeconfigNoDot = some []
    ∧ specSuffixMatch nameAKubeconfigNoDot = false := by decide

/-- C1 witness: the amended theorem applied at the concrete filename
`east.kubeconfig`. -/
theorem C1_matcher_behaviour_witness :
    ('\n' ∉ nameEastKubeconfig)
    ∧ (((findClusterNameSubmatch nameEastKubeconfig).isSome = true ↔
          ∃ j, 1 ≤ j ∧ occursAt nameEastKubeconfig j = true)
        ∧ (∀ nm, findClusterNameSubmatch nameEastKubeconfig = some nm →
            nm = nameEastKubeconfig.take nm.length
            ∧ occursAt nameEastKubeconfig (nm.length + 1) = true
            ∧ ∀ j, nm.length + 1 < j → occursAt nameEastKubeconfig j = false)
        ∧ (∀ fs loc m e, e.isDir = true → scanEntry fs loc m e = .ok m)) :=
  ⟨by decide, C1_matcher_behaviour nameEastKubeconfig (by decide)⟩

lemma buildBundle_ok_path (fs : FS) (loc : List Char) (f : DirEntry)
    (b : BuildClusterClientConfig) (h : buildBundle fs loc f = .ok b) :
    b.KubeconfigPath = pathJoin loc f.name := by
  unfold buildBundle at h
  repeat' split at h
  all_goals first
    | (injection h with h
       subst h
       rfl)
    | simp_all

lemma scanEntry_error (fs : FS) (loc : List Char) (m : ClusterMapT) (f : DirEntry)
    (e : ScanError) (hd : f.isDir = false) (nm : List Char)
    (hm : findClusterNameSubmatch f.name = some nm)
    (hb : buildBundle fs loc f = .error e) : scanEntry fs loc m f = .error e := by
  simp [scanEntry, hd, hm, hb]

lemma scanFiles_error_of_mem (fs : FS) (loc : List Char) (f : DirEntry)
    (hd : f.isDir = false) (nm : List Char) (hm : findClusterNameSubmatch f.name = some nm)
    (e : ScanError) (hb : buildBundle fs loc f = .error e) :
    ∀ files, f ∈ files → ∀ m, ∃ err, scanFiles fs loc m files = .error err := by
  intro files
  induction files with
  | nil => intro hf; cases hf
  | cons g rest ih =>
    intro hf m
    cases List.mem_cons.mp hf with
    | inl heq =>
      subst heq
      exact ⟨e, by simp [scanFiles, scanEntry_error fs loc m f e hd nm hm hb]⟩
    | inr hmem =>
      cases hse : scanEntry fs loc m g with
      | error e2 => exact ⟨e2, by simp [scanFiles, hse]⟩
      | ok m' =>
        obtain ⟨err, herr⟩ := ih hmem m'
        exact ⟨err, by simp [scanFiles, hse, herr]⟩

/-- C3: the Cluster Directory Scanner is atomic. A directory-listing
failure aborts the scan with the wrapped error; and whenever any listed
non-directory entry matches the filename pattern and its bundle build
fails — because reading the file fails, parsing fails, resolving fails,
or constructing the core, image, or project client fails — the whole
scan returns an error and no map at all. -/
theorem C3_scan_atomic (fs : FS) (loc : List Char) :
    (∀ e, fs.readDir = .error e →
      readBuildClusterKubeConfigs fs loc = .error (.accessLocation e))
    ∧ (∀ files f nm e, fs.readDir = .ok files → f ∈ files → f.isDir = false →
        findClusterNameSubmatch f.name = some nm → buildBundle fs loc f = .error e →
        ∃ err, readBuildClusterKubeConfigs fs loc = .error err
          ∧ ∀ m, readBuildClusterKubeConfigs fs loc ≠ .ok m)
    ∧ (∀ f e, fs.readFile (pathJoin loc f.name) = .error e →
        buildBundle fs loc f = .error (.accessKubeconfig e))
    ∧ (∀ f cts e, fs.readFile (pathJoin loc f.name) = .ok cts →
        fs.newClientConfigFromBytes cts = .error e →
        buildBundle fs loc f = .error (.loadBuildClientConfiguration e))
    ∧ (∀ f cts cfg e, fs.readFile (pathJoin loc f.name) = .ok cts →
        fs.newClientConfigFromBytes cts = .ok cfg →
        fs.clientConfigOf cfg = .error e →
        buildBundle fs loc f = .error (.loadClusterConfiguration e))
    ∧ (∀ f cts cfg cc e, fs.readFile (pathJoin loc f.name) = .ok cts →
        fs.newClientConfigFromBytes cts = .ok cfg →
        fs.clientConfigOf cfg = .ok cc →
        fs.newCoreClient cc = .error e →
        buildBundle fs loc f = .error (.createCoreClient e))
    ∧ (∀ f cts cfg cc c1 e, fs.readFile (pathJoin loc f.name) = .ok cts →
        fs.newClientConfigFromBytes cts = .ok cfg →
        fs.clientConfigOf cfg = .ok cc →
        fs.newCoreClient cc = .ok c1 →
        fs.newImageClient cc = .error e →
        buildBundle fs loc f = .error (.createTargetImageClient e))
    ∧ (∀ f cts cfg cc c1 c2 e, fs.readFile (pathJoin loc f.name) = .ok cts →
        fs.newClientConfigFromBytes cts = .ok cfg →
        fs.clientConfigOf cfg = .ok cc →
        fs.newCoreClient cc = .ok c1 →
        fs.newImageClient cc = .ok c2 →
        fs.newProjectClient cc = .error e →
        buildBundle fs loc f = .error (.createProjectClient e)) := by
  refine ⟨?_, ?_, ?_, ?_, ?_, ?_, ?_, ?_⟩
  · intro e h
    simp [readBuildClusterKubeConfigs, h]
  · intro files f nm e hdir hf hd hm hb
    obtain ⟨err, herr⟩ := scanFiles_error_of_mem fs loc f hd nm hm e hb files hf []
    refine ⟨err, ?_, ?_⟩
    · simp [readBuildClusterKubeConfigs, hdir, herr]
    · intro m hcontra
      simp [readBuildClusterKubeConfigs, hdir, herr] at hcontra
  · intro f e h1
    simp [buildBundle, h1]
  · intro f cts e h1 h2
    simp [buildBundle, h1, h2]
  · intro f cts cfg e h1 h2 h3
    simp [buildBundle, h1, h2, h3]
  · intro f cts cfg cc e h1 h2 h3 h4
    simp [buildBundle, h1, h2, h3, h4]
  · intro f cts cfg cc c1 e h1 h2 h3 h4 h5
    simp [buildBundle, h1, h2, h3, h4, h5]
  · intro f cts cfg cc c1 c2 e h1 h2 h3 h4 h5 h6
    simp [buildBundle, h1, h2, h3, h4, h5, h6]

/-- C3 witness: the theorem applied to a directory holding a valid
`a.kubeconfig` and a malformed `b.kubeconfig`: the whole scan fails and
no map (not even one containing only `a`) is returned. -/
theorem C3_scan_atomic_witness :
    (fsC3.readDir = .ok [⟨nameAKubeconfig, false⟩, entryB]
      ∧ entryB ∈ [(⟨nameAKubeconfig, false⟩ : DirEntry), entryB]
      ∧ entryB.isDir = false
      ∧ findClusterNameSubmatch entryB.name = some ['b']
      ∧ buildBundle fsC3 locD entryB = .error (.loadBuildClientConfiguration 5))
    ∧ (∃ err, readBuildClusterKubeConfigs fsC3 locD = .error err
        ∧ ∀ m, readBuildClusterKubeConfigs fsC3 locD ≠ .ok m) :=
  ⟨⟨by decide, by decide, by decide, by decide, by decide⟩,
   (C3_scan_atomic fsC3 locD).2.1 [⟨nameAKubeconfig, false⟩, entryB] entryB ['b']
     (.loadBuildClientConfiguration 5) (by decide) (by decide) (by decide) (by decide) (by decide)⟩

/-- C9: the scan's domain is exactly the matched non-directory entries:
an empty directory yields the empty map without error, directory
entries and non-matching names are silently skipped, and a directory
holding `notes.txt` and `a.kubeconfig` yields exactly one entry keyed
`a`. -/
theorem C9_scan_domain :
    (∀ fs loc, fs.readDir = .ok [] → readBuildClusterKubeConfigs fs loc = .ok [])
    ∧ (∀ fs loc m f, f.isDir = true → scanEntry fs loc m f = .ok m)
    ∧ (∀ fs loc m f, f.isDir = false → findClusterNameSubmatch f.name = none →
        scanEntry fs loc m f = .ok m)
    ∧ readBuildClusterKubeConfigs fsC9 locD = .ok [(['a'], bundleA)] := by
  refine ⟨?_, ?_, ?_, by decide⟩
  · intro fs loc h
    simp [readBuildClusterKubeConfigs, h, scanFiles]
  · intro fs loc m f h
    simp [scanEntry, h]
  · intro fs loc m f hd hm
    simp [scanEntry, hd, hm]

/-- C9 witness: the empty-directory conjunct applied at a concrete
filesystem, and the skip conjuncts applied at a concrete subdirectory
entry and at `notes.txt`. -/
theorem C9_scan_domain_witness :
    (fsAllOk.readDir = .ok [] ∧ readBuildClusterKubeConfigs fsAllOk locD = .ok [])
    ∧ scanEntry fsAllOk locD [] ⟨['s', 'u', 'b'], true⟩ = .ok []
    ∧ scanEntry fsAllOk locD [] ⟨nameNotesTxt, false⟩ = .ok [] :=
  ⟨⟨by decide, C9_scan_domain.1 fsAllOk locD (by decide)⟩,
   C9_scan_domain.2.1 fsAllOk locD [] ⟨['s', 'u', 'b'], true⟩ (by decide),
   C9_scan_domain.2.2.1 fsAllOk locD [] ⟨nameNotesTxt, false⟩ (by decide) (by decide)⟩

lemma mem_mapInsert : ∀ (m : ClusterMapT) (k : List Char) (v : BuildClusterClientConfig)
    (kb : List Char × BuildClusterClientConfig),
    kb ∈ mapInsert m k v → kb = (k, v) ∨ kb ∈ m
  | [], k, v, kb, h => by
    simp [mapInsert] at h
    exact Or.inl h
  | (k', v') :: rest, k, v, kb, h => by
    rw [mapInsert] at h
    split at h
    · cases List.mem_cons.mp h with
      | inl he => exact Or.inl he
      | inr hm => exact Or.inr (List.mem_cons_of_mem _ hm)
    · cases List.mem_cons.mp h with
      | inl he => exact Or.inr (he ▸ List.mem_cons_self _ _)
      | inr hm =>
        cases mem_mapInsert rest k v kb hm with
        | inl he => exact Or.inl he
        | inr hm2 => exact Or.inr (List.mem_cons_of_mem _ hm2)

lemma scanEntry_ok_mem (fs : FS) (loc : List Char) (m : ClusterMapT) (f : DirEntry)
    (m' : ClusterMapT) (h : scanEntry fs loc m f = .ok m') :
    ∀ kb ∈ m', kb ∈ m ∨ (f.isDir = false ∧ ∃ nm b, findClusterNameSubmatch f.name = some nm
      ∧ buildBundle fs loc f = .ok b ∧ kb = (nm, b)) := by
  rw [scanEntry] at h
  split at h
  · injection h with h
    subst h
    exact fun kb hkb => Or.inl hkb
  · rename_i hdir
    cases hfind : findClusterNameSubmatch f.name with
    | none =>
      rw [hfind] at h
      injection h with h
      subst h
      exact fun kb hkb => Or.inl hkb
    | some nm =>
      rw [hfind] at h
      cases hbb : buildBundle fs loc f with
      | error e =>
        rw [hbb] at h
        simp at h
      | ok b =>
        rw [hbb] at h
        injection h with h
        subst h
        intro kb hkb
        cases mem_mapInsert m nm b kb hkb with
        | inl he => exact Or.inr ⟨by simpa using hdir, nm, b, rfl, rfl, he⟩
        | inr hm => exact Or.inl hm

lemma scanFiles_ok_inv (fs : FS) (loc : List Char) :
    ∀ (files : List DirEntry) (m0 m : ClusterMapT),
    scanFiles fs loc m0 files = .ok m →
    ∀ kb ∈ m, kb ∈ m0 ∨ ∃ f ∈ files, f.isDir = false
      ∧ findClusterNameSubmatch f.name = some kb.1
      ∧ kb.2.KubeconfigPath = pathJoin loc f.name
  | [], m0, m, h => by
    rw [scanFiles] at h
    injection h with h
    subst h
    exact fun kb hkb => Or.inl hkb
  | g :: rest, m0, m, h => by
    rw [scanFiles] at h
    cases hse : scanEntry fs loc m0 g with
    | error e =>
      rw [hse] at h
      simp at h
    | ok m1 =>
      rw [hse] at h
      intro kb hkb
      cases scanFiles_ok_inv fs loc rest m1 m h kb hkb with
      | inr hex =>
        obtain ⟨f, hf, hrest⟩ := hex
        exact Or.inr ⟨f, List.mem_cons_of_mem _ hf, hrest⟩
      | inl hm1 =>
        cases scanEntry_ok_mem fs loc m0 g m1 hse kb hm1 with
        | inl h0 => exact Or.inl h0
        | inr hex =>
          obtain ⟨hgdir, nm, b, hfind, hbb, hkb'⟩ := hex
          refine Or.inr ⟨g, List.mem_cons_self _ _, hgdir, ?_, ?_⟩
          · rw [hkb']
            exact hfind
          · rw [hkb']
            exact buildBundle_ok_path fs loc g b hbb

lemma readBuild_ok_files (fs : FS) (loc : List Char) (files : List DirEntry)
    (m : ClusterMapT) (hdir : fs.readDir = .ok files)
    (h : readBuildClusterKubeConfigs fs loc = .ok m) :
    scanFiles fs loc [] files = .ok m := by
  rw [readBuildClusterKubeConfigs, hdir] at h
  exact h

lemma addWatches_ok_eq : ∀ (env : WatchEnv) (m : ClusterMapT) (ws : List (List Char)),
    addWatches env m = .ok ws →
    ws = (m.filter fun kb => (env.statErr kb.2.KubeconfigPath).isNone).map
      (fun kb => kb.2.KubeconfigPath)
  | env, [], ws, h => by
    rw [addWatches] at h
    injection h with h
    simp [h.symm]
  | env, kb :: rest, ws, h => by
    rw [addWatches] at h
    cases hs : env.statErr kb.2.KubeconfigPath with
    | some e =>
      rw [hs] at h
      have hr := addWatches_ok_eq env rest ws h
      simp [List.filter_cons, hs, hr]
    | none =>
      rw [hs] at h
      cases ha : env.addErr kb.2.KubeconfigPath with
      | some e =>
        rw [ha] at h
        simp at h
      | none =>
        rw [ha] at h
        cases hrec : addWatches env rest with
        | error e2 =>
          rw [hrec] at h
          simp at h
        | ok ws0 =>
          rw [hrec] at h
          injection h with h
          have hr := addWatches_ok_eq env rest ws0 hrec
          simp [List.filter_cons, hs, ← h, hr]

lemma addWatches_ok_of (env : WatchEnv) : ∀ (m : ClusterMapT),
    (∀ kb ∈ m, env.statErr kb.2.KubeconfigPath = none → env.addErr kb.2.KubeconfigPath = none) →
    ∃ ws, addWatches env m = .ok ws
  | [], _ => ⟨[], rfl⟩
  | kb :: rest, h => by
    obtain ⟨ws0, hws0⟩ := addWatches_ok_of env rest
      (fun kb' hkb' => h kb' (List.mem_cons_of_mem _ hkb'))
    cases hs : env.statErr kb.2.KubeconfigPath with
    | some e => exact ⟨ws0, by rw [addWatches, hs]; exact hws0⟩
    | none =>
      have ha := h kb (List.mem_cons_self _ _) hs
      exact ⟨kb.2.KubeconfigPath :: ws0, by rw [addWatches, hs, ha, hws0]⟩

/-- C10: for every successful scan, every bundle stored in the returned
map has `KubeconfigPath` equal to the path-join of the scanned location
with the filename of the matched non-directory entry it was built from,
and on successful watch setup the registered watch paths are exactly
the stored `KubeconfigPath` fields of the bundles whose stat (performed
on that same stored path) succeeds. -/
theorem C10_path_agreement (fs : FS) (loc : List Char) (env : WatchEnv)
    (files : List DirEntry) (m : ClusterMapT) (ws : List (List Char))
    (hdir : fs.readDir = .ok files)
    (hscan : readBuildClusterKubeConfigs fs loc = .ok m)
    (hws : setupKubeconfigWatches env m = .ok ws) :
    (∀ kb ∈ m, ∃ f ∈ files, f.isDir = false
      ∧ findClusterNameSubmatch f.name = some kb.1
      ∧ kb.2.KubeconfigPath = pathJoin loc f.name)
    ∧ ws = (m.filter fun kb => (env.statErr kb.2.KubeconfigPath).isNone).map
        (fun kb => kb.2.KubeconfigPath) := by
  constructor
  · intro kb hkb
    have hscanf := readBuild_ok_files fs loc files m hdir hscan
    cases scanFiles_ok_inv fs loc files [] m hscanf kb hkb with
    | inl h0 => cases h0
    | inr hex => exact hex
  · rw [setupKubeconfigWatches] at hws
    cases hw : env.newWatcher with
    | error e =>
      rw [hw] at hws
      simp at hws
    | ok u =>
      rw [hw] at hws
      exact addWatches_ok_eq env m ws hws

/-- C10 witness: the theorem applied to the concrete scan of a
directory holding `notes.txt` and `a.kubeconfig`, with a watch
environment in which every file exists. -/
theorem C10_path_agreement_witness :
    (fsC9.readDir = .ok [⟨nameNotesTxt, false⟩, ⟨nameAKubeconfig, false⟩]
      ∧ readBuildClusterKubeConfigs fsC9 locD = .ok [(['a'], bundleA)]
      ∧ setupKubeconfigWatches watchEnvC10 [(['a'], bundleA)] = .ok [bundleA.KubeconfigPath])
    ∧ ((∀ kb ∈ [(['a'], bundleA)], ∃ f ∈ [(⟨nameNotesTxt, false⟩ : DirEntry), ⟨nameAKubeconfig, false⟩],
          f.isDir = false
          ∧ findClusterNameSubmatch f.name = some kb.1
          ∧ kb.2.KubeconfigPath = pathJoin locD f.name)
        ∧ [bundleA.KubeconfigPath] =
            (([(['a'], bundleA)] : ClusterMapT).filter
              fun kb => (watchEnvC10.statErr kb.2.KubeconfigPath).isNone).map
              (fun kb => kb.2.KubeconfigPath)) :=
  ⟨⟨by decide, by decide, by decide⟩,
   C10_path_agreement fsC9 locD watchEnvC10 [⟨nameNotesTxt, false⟩, ⟨nameAKubeconfig, false⟩]
     [(['a'], bundleA)] [bundleA.KubeconfigPath] (by decide) (by decide) (by decide)⟩

/-- C7: with a working watcher, a bundle whose source file does not
exist at registration time (stat fails) is silently skipped — no watch
is registered on its path and no error results — while setup succeeds
and registers watches for exactly the bundles whose files exist. -/
theorem C7_missing_files_skipped (env : WatchEnv) (m : ClusterMapT)
    (hw : env.newWatcher = .ok ())
    (hadd : ∀ kb ∈ m, env.statErr kb.2.KubeconfigPath = none →
      env.addErr kb.2.KubeconfigPath = none) :
    ∃ ws, setupKubeconfigWatches env m = .ok ws
      ∧ ws = (m.filter fun kb => (env.statErr kb.2.KubeconfigPath).isNone).map
          (fun kb => kb.2.KubeconfigPath)
      ∧ ∀ kb ∈ m, env.statErr kb.2.KubeconfigPath ≠ none → kb.2.KubeconfigPath ∉ ws := by
  obtain ⟨ws, hws⟩ := addWatches_ok_of env m hadd
  have heq := addWatches_ok_eq env m ws hws
  refine ⟨ws, ?_, heq, ?_⟩
  · rw [setupKubeconfigWatches, hw]
    exact hws
  · intro kb hkb hstat hmem
    rw [heq] at hmem
    obtain ⟨kb', hkb', hpath⟩ := List.mem_map.mp hmem
    obtain ⟨_, hstat'⟩ := List.mem_filter.mp hkb'
    rw [hpath] at hstat'
    rw [Option.isNone_iff_eq_none] at hstat'
    exact hstat hstat'

/-- C7 witness: the theorem applied to a concrete map in which `b`'s
file is missing and `a`'s exists: setup succeeds and only `a`'s path is
watched. -/
theorem C7_missing_files_skipped_witness :
    (watchEnvC7.newWatcher = .ok ()
      ∧ (∀ kb ∈ mapC7, watchEnvC7.statErr kb.2.KubeconfigPath = none →
          watchEnvC7.addErr kb.2.KubeconfigPath = none))
    ∧ (∃ ws, setupKubeconfigWatches watchEnvC7 mapC7 = .ok ws
        ∧ ws = (mapC7.filter fun kb => (watchEnvC7.statErr kb.2.KubeconfigPath).isNone).map
            (fun kb => kb.2.KubeconfigPath)
        ∧ ∀ kb ∈ mapC7, watchEnvC7.statErr kb.2.KubeconfigPath ≠ none →
            kb.2.KubeconfigPath ∉ ws) :=
  ⟨⟨by decide, by decide⟩,
   C7_missing_files_skipped watchEnvC7 mapC7 (by decide) (by decide)⟩

lemma watchEventLoop_append_exit : ∀ (pre : List FsEvent) (ev : FsEvent) (rest : List FsEvent),
    (∀ x ∈ pre, x.op = FsnotifyOp.Chmod) → ev.op ≠ FsnotifyOp.Chmod →
    watchEventLoop (pre ++ ev :: rest) = .exitProcess 0
  | [], ev, rest, _, hev => by simp [watchEventLoop, hev]
  | p :: ps, ev, rest, hpre, hev => by
    have hp := hpre p (List.mem_cons_self _ _)
    rw [List.cons_append, watchEventLoop]
    simp only [hp, if_pos]
    exact watchEventLoop_append_exit ps ev rest
      (fun x hx => hpre x (List.mem_cons_of_mem _ hx)) hev

/-- C4: the Watch Supervisor's event loop never terminates the process
on permission/metadata-only (`Chmod`) events — it keeps watching — and
the first event of any other kind terminates the whole process
immediately (regardless of later events) with exit status 0. -/
theorem C4_event_loop (evs : List FsEvent) :
    ((∀ e ∈ evs, e.op = FsnotifyOp.Chmod) → watchEventLoop evs = .watching)
    ∧ (∀ pre ev rest, evs = pre ++ ev :: rest → (∀ x ∈ pre, x.op = FsnotifyOp.Chmod) →
        ev.op ≠ FsnotifyOp.Chmod → watchEventLoop evs = .exitProcess 0)
    ∧ (watchEventLoop evs = .exitProcess 0 ↔ ∃ e ∈ evs, e.op ≠ FsnotifyOp.Chmod) := by
  refine ⟨?_, ?_, ?_⟩
  · induction evs with
    | nil => intro _; rfl
    | cons e rest ih =>
      intro h
      have he := h e (List.mem_cons_self _ _)
      rw [watchEventLoop]
      simp only [he, if_pos]
      exact ih fun x hx => h x (List.mem_cons_of_mem _ hx)
  · intro pre ev rest heq hpre hev
    rw [heq]
    exact watchEventLoop_append_exit pre ev rest hpre hev
  · induction evs with
    | nil => simp [watchEventLoop]
    | cons e rest ih =>
      by_cases he : e.op = FsnotifyOp.Chmod
      · rw [watchEventLoop]
        simp only [he, if_pos]
        rw [ih]
        constructor
        · rintro ⟨x, hx, hxop⟩
          exact ⟨x, List.mem_cons_of_mem _ hx, hxop⟩
        · rintro ⟨x, hx, hxop⟩
          cases List.mem_cons.mp hx with
          | inl h0 => exact absurd (h0 ▸ he) hxop
          | inr h0 => exact ⟨x, h0, hxop⟩
      · rw [watchEventLoop, if_neg he]
        simp only [true_iff]
        exact ⟨e, List.mem_cons_self _ _, he⟩

/-- C4 witness: the theorem applied to a concrete event sequence: one
`Chmod` event followed by a `Write` event terminates with exit 0 at the
`Write` event, and a lone `Chmod` event keeps watching. -/
theorem C4_event_loop_witness :
    (evsC4 = [⟨FsnotifyOp.Chmod, []⟩] ++ ⟨FsnotifyOp.Write, []⟩ :: [⟨FsnotifyOp.Remove, []⟩]
      ∧ (∀ x ∈ [(⟨FsnotifyOp.Chmod, []⟩ : FsEvent)], x.op = FsnotifyOp.Chmod)
      ∧ (⟨FsnotifyOp.Write, []⟩ : FsEvent).op ≠ FsnotifyOp.Chmod)
    ∧ watchEventLoop evsC4 = .exitProcess 0
    ∧ watchEventLoop [⟨FsnotifyOp.Chmod, []⟩] = .watching :=
  ⟨⟨by decide, by decide, by decide⟩,
   (C4_event_loop evsC4).2.1 [⟨FsnotifyOp.Chmod, []⟩] ⟨FsnotifyOp.Write, []⟩
     [⟨FsnotifyOp.Remove, []⟩] (by decide) (by decide) (by decide),
   (C4_event_loop [⟨FsnotifyOp.Chmod, []⟩]).1 (by decide)⟩

/-- C5: the bot retry loop sleeps a fixed 5-unit interval and restarts
the Bot after every `nil` return and after every retriable error, with
no retry bound; a non-retriable error exits immediately (with no
further sleep) reporting that error. For a Bot returning a retriable
error twice and then a non-retriable error, exactly three starts occur
with exactly two intervening 5-unit pauses and the loop exits with the
third error. -/
theorem C5_bot_retry_loop (outcome : Nat → Option Err) (retriable : Err → Bool)
    (e0 e1 e2 : Err)
    (h0 : outcome 0 = some e0) (hr0 : retriable e0 = true)
    (h1 : outcome 1 = some e1) (hr1 : retriable e1 = true)
    (h2 : outcome 2 = some e2) (hr2 : retriable e2 = false) :
    (∀ fuel n, outcome n = none →
      botLoop outcome retriable (fuel + 1) n =
        (RunStep.botStart n :: RunStep.sleepSecs 5 :: (botLoop outcome retriable fuel (n + 1)).1,
         (botLoop outcome retriable fuel (n + 1)).2))
    ∧ (∀ fuel n er, outcome n = some er → retriable er = true →
        botLoop outcome retriable (fuel + 1) n =
          (RunStep.botStart n :: RunStep.sleepSecs 5 :: (botLoop outcome retriable fuel (n + 1)).1,
           (botLoop outcome retriable fuel (n + 1)).2))
    ∧ (∀ fuel n er, outcome n = some er → retriable er = false →
        botLoop outcome retriable (fuel + 1) n = ([RunStep.botStart n], .exited er))
    ∧ (∀ fuel, 3 ≤ fuel →
        botLoop outcome retriable fuel 0 =
          ([RunStep.botStart 0, RunStep.sleepSecs 5, RunStep.botStart 1,
            RunStep.sleepSecs 5, RunStep.botStart 2], .exited e2)) := by
  refine ⟨?_, ?_, ?_, ?_⟩
  · intro fuel n h
    simp [botLoop, h]
  · intro fuel n er h hr
    simp [botLoop, h, hr]
  · intro fuel n er h hr
    simp [botLoop, h, hr]
  · intro fuel hf
    obtain ⟨k, rfl⟩ := Nat.exists_eq_add_of_le hf
    have h3 : 3 + k = (k + 2) + 1 := by omega
    rw [h3]
    simp [botLoop, h0, h1, h2, hr0, hr1, hr2]

/-- C5 witness: the theorem applied to concrete outcomes (errors 0 and
1 retriable, error 2 not), plus the run-level evaluation showing the
process exits with the third error. -/
theorem C5_bot_retry_loop_witness :
    (outcomeC5 0 = some 0 ∧ retriableC5 0 = true ∧ outcomeC5 1 = some 1
      ∧ retriableC5 1 = true ∧ outcomeC5 2 = some 2 ∧ retriableC5 2 = false)
    ∧ botLoop outcomeC5 retriableC5 5 0 =
        ([RunStep.botStart 0, RunStep.sleepSecs 5, RunStep.botStart 1,
          RunStep.sleepSecs 5, RunStep.botStart 2], .exited 2)
    ∧ (runModel envC5 5).2 = .fatal (.botFatal 2) :=
  ⟨⟨by decide, by decide, by decide, by decide, by decide, by decide⟩,
   (C5_bot_retry_loop outcomeC5 retriableC5 0 1 2 (by decide) (by decide) (by decide)
     (by decide) (by decide) (by decide)).2.2.2 5 (by decide),
   by decide⟩

lemma addWatches_okWatchEnv : ∀ (m : ClusterMapT), addWatches okWatchEnv m = .ok []
  | [] => rfl
  | kb :: rest => by
    rw [addWatches]
    exact addWatches_okWatchEnv rest

lemma setupWatches_okWatchEnv (m : ClusterMapT) :
    setupKubeconfigWatches okWatchEnv m = .ok [] := by
  rw [setupKubeconfigWatches]
  exact addWatches_okWatchEnv m


lemma runAfterWatch_head (env : RunEnv) (fuel : Nat) :
    ∃ rest, (runAfterWatch env fuel).1 = RunStep.parseResolver :: rest := by
  unfold runAfterWatch
  repeat' split
  all_goals exact ⟨_, rfl⟩

lemma runAfterWatch_watchEnv_irrelevant (env : RunEnv) (w : WatchEnv) (fuel : Nat) :
    runAfterWatch { env with watchEnv := w } fuel = runAfterWatch env fuel := rfl

lemma runModel_watch_error (env : RunEnv) (fuel : Nat) (m : ClusterMapT) (e : WatchError)
    (hscan : readBuildClusterKubeConfigs env.fs env.opt.BuildClusterKubeconfigsLocation = .ok m)
    (hw : setupKubeconfigWatches env.watchEnv m = .error e) :
    runModel env fuel =
      (RunStep.scanDir :: RunStep.watchSetup :: RunStep.warnWatchFailed ::
        (runAfterWatch env fuel).1, (runAfterWatch env fuel).2) := by
  rw [runModel, hscan]
  simp [hw]

lemma runModel_watch_ok (env : RunEnv) (fuel : Nat) (m : ClusterMapT) (ws : List (List Char))
    (hscan : readBuildClusterKubeConfigs env.fs env.opt.BuildClusterKubeconfigsLocation = .ok m)
    (hws : setupKubeconfigWatches env.watchEnv m = .ok ws) :
    runModel env fuel =
      (RunStep.scanDir :: RunStep.watchSetup :: (runAfterWatch env fuel).1,
       (runAfterWatch env fuel).2) := by
  rw [runModel, hscan]
  simp [hws]

/-- C8: failure of watch setup is non-fatal to startup. When the scan
succeeds and `setupKubeconfigWatches` fails, `run` records a warning
and continues through the remaining startup steps: its outcome is the
same as with a succeeding watch environment, and the trace continues
past the warning into URL parsing. -/
theorem C8_watch_failure_nonfatal (env : RunEnv) (fuel : Nat) (m : ClusterMapT) (e : WatchError)
    (hscan : readBuildClusterKubeConfigs env.fs env.opt.BuildClusterKubeconfigsLocation = .ok m)
    (hw : setupKubeconfigWatches env.watchEnv m = .error e) :
    (runModel env fuel).2 = (runModel { env with watchEnv := okWatchEnv } fuel).2
    ∧ ∃ rest, (runModel env fuel).1 =
        RunStep.scanDir :: RunStep.watchSetup :: RunStep.warnWatchFailed ::
          RunStep.parseResolver :: rest := by
  have hleft := runModel_watch_error env fuel m e hscan hw
  have hright := runModel_watch_ok { env with watchEnv := okWatchEnv } fuel m []
    hscan (setupWatches_okWatchEnv m)
  rw [runAfterWatch_watchEnv_irrelevant] at hright
  constructor
  · rw [hleft, hright]
  · obtain ⟨rest, hrest⟩ := runAfterWatch_head env fuel
    refine ⟨rest, ?_⟩
    rw [hleft]
    simp [hrest]

/-- C8 witness: the theorem applied to a concrete environment in which
the fsnotify watcher cannot be created. -/
theorem C8_watch_failure_nonfatal_witness :
    (readBuildClusterKubeConfigs envC8.fs envC8.opt.BuildClusterKubeconfigsLocation = .ok []
      ∧ setupKubeconfigWatches envC8.watchEnv [] = .error (.watcherSetup 4))
    ∧ ((runModel envC8 1).2 = (runModel { envC8 with watchEnv := okWatchEnv } 1).2
        ∧ ∃ rest, (runModel envC8 1).1 =
            RunStep.scanDir :: RunStep.watchSetup :: RunStep.warnWatchFailed ::
              RunStep.parseResolver :: rest) :=
  ⟨⟨by decide, by decide⟩,
   C8_watch_failure_nonfatal envC8 1 [] (.watcherSetup 4) (by decide) (by decide)⟩

/-- C6 (amended): the missing bot token is fatal with the missing-token
error, but the check happens only after the directory scan, watch
setup, and resolver-URL parsing: when the token is absent and those
earlier steps succeed, `run` fails with the missing-token error, the
scan having been performed, and no later step (starting with the
ambient kubeconfig load) is performed. -/
theorem C6_token_checked_after_scan (env : RunEnv) (fuel : Nat) (m : ClusterMapT) (u : URLT)
    (htok : env.botToken = [])
    (hscan : readBuildClusterKubeConfigs env.fs env.opt.BuildClusterKubeconfigsLocation = .ok m)
    (hurl : env.parseURLResult env.opt.ConfigResolver = .ok u) :
    (runModel env fuel).2 = .fatal .missingBotToken
    ∧ RunStep.scanDir ∈ (runModel env fuel).1
    ∧ RunStep.loadProwKubeconfig ∉ (runModel env fuel).1 := by
  have hlen : env.botToken.length = 0 := by rw [htok]; rfl
  have hrest : runAfterWatch env fuel =
      ([RunStep.parseResolver, RunStep.checkBotToken], .fatal .missingBotToken) := by
    rw [runAfterWatch, hurl]
    simp [hlen]
  cases hws : setupKubeconfigWatches env.watchEnv m with
  | error e =>
    have h := runModel_watch_error env fuel m e hscan hws
    rw [h, hrest]
    exact ⟨by decide, by decide, by decide⟩
  | ok ws =>
    have h := runModel_watch_ok env fuel m ws hscan hws
    rw [h, hrest]
    exact ⟨by decide, by decide, by decide⟩

/-- C6 counterexample: in an environment with the bot token absent and
an unreadable credential directory, the directory scan is performed
anyway (contrary to the claim that it is not) and the run fails with
the scan error, not the missing-token error. -/
theorem C6_counterexample :
    envC6.botToken = []
    ∧ RunStep.scanDir ∈ (runModel envC6 1).1
    ∧ (runModel envC6 1).2 = .fatal (.loadBuildClusters (.accessLocation 3))
    ∧ (runModel envC6 1).2 ≠ .fatal .missingBotToken := by decide

/-- C6 witness: the amended theorem applied to an environment with the
token absent and all earlier steps succeeding. -/
theorem C6_token_checked_after_scan_witness :
    (envC6ok.botToken = []
      ∧ readBuildClusterKubeConfigs envC6ok.fs envC6ok.opt.BuildClusterKubeconfigsLocation = .ok []
      ∧ envC6ok.parseURLResult envC6ok.opt.ConfigResolver = .ok 0)
    ∧ ((runModel envC6ok 1).2 = .fatal .missingBotToken
        ∧ RunStep.scanDir ∈ (runModel envC6ok 1).1
        ∧ RunStep.loadProwKubeconfig ∉ (runModel envC6ok 1).1) :=
  ⟨⟨rfl, by decide, by decide⟩,
   C6_token_checked_after_scan envC6ok 1 [] 0 rfl (by decide) (by decide)⟩

/-- C2: evaluation exhibiting the release-credential bug. In `envC2` a
distinct release kubeconfig is configured and loading it fails (the
pair's error component is `some 7`), yet because the source overwrites
`err` with the image-client construction result before checking it,
`run` does not return an error: it continues, constructs the Job
Manager and the Bot, and enters the retry loop. -/
theorem C2_release_load_error_discarded :
    (loadKubeconfigFromFlagOrDefault envC2.loadReleaseKubeconfig
        envC2.opt.ReleaseClusterKubeconfig 0).2 = some 7
    ∧ (runModel envC2 1).2 = .running
    ∧ RunStep.newJobManager ∈ (runModel envC2 1).1
    ∧ RunStep.newBot ∈ (runModel envC2 1).1 := by decide
